import Mathlib

set_option maxRecDepth 1000000

/-!
Verification development for the restricted arithmetic evaluator in
`src/app.py` (a Streamlit calculator).  The Python program is shallowly
embedded: Python numbers (`int` / `float`) become an inductive `PyVal`
whose `float` component is modelled by an exact rational (the values
occurring in the claims are exactly representable, so no rounding of the
binary significand is modelled); the `ast` expression nodes relevant to
the program become the inductive `Expr`; the `SafeEval` visitor becomes
`visit`, with the visitor's mutable `visited` counter threaded explicitly.

The parser of the source program is Python's standard-library `ast.parse`
(not part of the repository).  Modelled from the spec: `ast_parse`
follows the grammar of spec section 4.2 — numeric literals, `+ - * / //
% **`, parentheses, unary sign — extended with the constructs of full
Python surface syntax the claims exercise and which `ast.parse` also
accepts: bare identifiers, call syntax `name(...)`, and a single `<`
comparison (which `ast.parse` turns into a `Compare` node that has no
dedicated visitor in `SafeEval`).
-/

namespace Calculator

/-- A Python numeric value: `int` (arbitrary precision) or `float`
(modelled by its exact rational value). -/
inductive PyVal where
  | int : Int → PyVal
  | float : Rat → PyVal
deriving DecidableEq

/-- A Python object as returned by the visitor: a number, or `None`
(which `ast.NodeVisitor.generic_visit` returns for node types that have
no dedicated `visit_*` method). -/
abbrev PyObj := Option PyVal

/-- The error conditions `safe_eval` can surface, one per distinct
`raise`/`except` site of the source (plus `floatPow`, an embedding
boundary for real-valued powers with non-integral exponents, which the
rational value model cannot represent). -/
inductive EvalErr where
  | parseError          -- SyntaxError raised by ast.parse
  | expressionTooLarge  -- ValueError "Expression too large."
  | exponentTooLarge    -- ValueError "Exponent too large."
  | callsNotAllowed     -- ValueError "Function calls are not allowed."
  | variablesNotAllowed -- ValueError "Variables are not allowed."
  | zeroDivision        -- ZeroDivisionError
  | typeError           -- TypeError from arithmetic on None
  | floatPow            -- embedding boundary: non-integral exponent
deriving DecidableEq

deriving instance DecidableEq for Except

/-- The numeric value of a `PyVal` (an `int` and a `float` compare and
combine by their numeric value in Python). -/
def valRat : PyVal → Rat
  | .int n => (n : Rat)
  | .float q => q

/-- Python `+` on numbers: `int + int` stays `int`, any `float` operand
makes the result `float`. -/
def pyAdd : PyVal → PyVal → PyVal
  | .int m, .int n => .int (m + n)
  | a, b => .float (valRat a + valRat b)

/-- Python `-` on numbers. -/
def pySub : PyVal → PyVal → PyVal
  | .int m, .int n => .int (m - n)
  | a, b => .float (valRat a - valRat b)

/-- Python `*` on numbers. -/
def pyMul : PyVal → PyVal → PyVal
  | .int m, .int n => .int (m * n)
  | a, b => .float (valRat a * valRat b)

/-- Python unary `-` on numbers. -/
def pyNeg : PyVal → PyVal
  | .int n => .int (-n)
  | .float q => .float (-q)

/-- Python `/` (true division): always a `float`; a zero divisor raises
`ZeroDivisionError`. -/
def pyDiv (a b : PyVal) : Except EvalErr PyVal :=
  if valRat b = 0 then .error .zeroDivision
  else .ok (.float (valRat a / valRat b))

/-- Python `//` (floor division): `int // int` stays `int`, otherwise a
`float` carrying the floor; a zero divisor raises `ZeroDivisionError`. -/
def pyFloorDiv (a b : PyVal) : Except EvalErr PyVal :=
  if valRat b = 0 then .error .zeroDivision
  else
    match a, b with
    | .int m, .int n => .ok (.int (Int.fdiv m n))
    | _, _ => .ok (.float ((⌊valRat a / valRat b⌋ : Int) : Rat))

/-- Python `%`: the remainder takes the sign of the divisor
(`a % b = a - (a // b) * b`); a zero divisor raises `ZeroDivisionError`. -/
def pyMod (a b : PyVal) : Except EvalErr PyVal :=
  if valRat b = 0 then .error .zeroDivision
  else
    match a, b with
    | .int m, .int n => .ok (.int (Int.fmod m n))
    | _, _ => .ok (.float (valRat a - ((⌊valRat a / valRat b⌋ : Int) : Rat) * valRat b))

/-- Python `**` on numbers: `int ** nonnegative int` stays `int`;
`int ** negative int` and any `float` operand give a `float`;
`0 ** negative` raises `ZeroDivisionError`.  A non-integral exponent
(whose exact result is in general irrational) is outside the rational
value model and is flagged `floatPow`. -/
def pyPow (a b : PyVal) : Except EvalErr PyVal :=
  match a, b with
  | .int m, .int n =>
    if 0 ≤ n then .ok (.int (m ^ n.toNat))
    else if m = 0 then .error .zeroDivision
    else .ok (.float (((m : Rat) ^ (-n).toNat)⁻¹))
  | _, _ =>
    if (valRat b).den = 1 then
      if valRat a = 0 ∧ (valRat b).num < 0 then .error .zeroDivision
      else .ok (.float (valRat a ^ (valRat b).num))
    else .error .floatPow

/-- Banker's rounding of a rational to the nearest integer, ties to the
even neighbour — the rounding mode of Python's built-in `round`. -/
def roundHalfEven (q : Rat) : Int :=
  if q - (⌊q⌋ : Rat) < 1 / 2 then ⌊q⌋
  else if 1 / 2 < q - (⌊q⌋ : Rat) then ⌊q⌋ + 1
  else if ⌊q⌋ % 2 = 0 then ⌊q⌋ else ⌊q⌋ + 1

/-- `round(x, 12)` of the source (line 85): round to 12 decimal digits. -/
def round12 (q : Rat) : Rat :=
  ((roundHalfEven (q * 10 ^ 12) : Int) : Rat) / 10 ^ 12

/-- Result finalization of `safe_eval` (lines 84–85): a `float` result is
passed through `round(result, 12)`; an `int` or `None` result is returned
untouched. -/
def pyFinalize : PyObj → PyObj
  | some (.float q) => some (.float (round12 q))
  | r => r

/-- The binary-operator node kinds produced by the modelled surface
syntax; all of them are in `ALLOWED_BIN_OPS` (lines 9–17). -/
inductive BOp where
  | add | sub | mult | div | floorDiv | mod | pow
deriving DecidableEq

/-- The unary-operator node kinds produced by the modelled surface
syntax; both are in `ALLOWED_UNARY_OPS` (lines 18–21). -/
inductive UOp where
  | uadd | usub
deriving DecidableEq

/-- Comparison-operator node kinds (a `cmpop` AST node; `SafeEval` has no
visitor for these, so they reach `generic_visit`). -/
inductive COp where
  | lt
deriving DecidableEq

/-- The Python `ast` expression nodes the modelled surface syntax can
produce.  `compare` models a single-comparison `Compare` chain (one
operator, one comparator). -/
inductive Expr where
  | num (v : PyVal)
  | binOp (op : BOp) (left right : Expr)
  | unaryOp (op : UOp) (operand : Expr)
  | call (fn : List Char) (args : List Expr)
  | name (id : List Char)
  | compare (left : Expr) (op : COp) (right : Expr)

/-- `SafeEval(max_nodes=200)` — the default node budget (line 24). -/
def max_nodes : Nat := 200

/-- Dispatch of `ALLOWED_BIN_OPS[op_type](left, right)` (line 55). -/
def applyBin : BOp → PyVal → PyVal → Except EvalErr PyVal
  | .add, a, b => .ok (pyAdd a b)
  | .sub, a, b => .ok (pySub a b)
  | .mult, a, b => .ok (pyMul a b)
  | .div, a, b => pyDiv a b
  | .floorDiv, a, b => pyFloorDiv a b
  | .mod, a, b => pyMod a b
  | .pow, a, b => pyPow a b

/-- The `SafeEval` visitor (lines 23–68), with the mutable `visited`
counter threaded explicitly as the first argument/result component.
Dispatch follows `ast.NodeVisitor.visit`: a node type with a dedicated
`visit_*` method goes there (and, as in the source, those methods never
touch the counter); a node type without one (`Compare` and its `cmpop`
operator node) goes to `generic_visit`, which increments the counter,
raises "Expression too large." the instant it exceeds `max_nodes`,
visits the children in field order discarding their values, and returns
`None`.  Arithmetic applied to a `None` operand raises `TypeError`
(caught by the generic `except Exception` of `safe_eval`). -/
def visit : Nat → Expr → Except EvalErr (Nat × PyObj)
  | cnt, .num v => .ok (cnt, some v)
  | cnt, .binOp o l r =>
    match visit cnt l with
    | .error e => .error e
    | .ok (c1, lv) =>
      match visit c1 r with
      | .error e => .error e
      | .ok (c2, rv) =>
        match lv, rv with
        | some a, some b =>
          if o = .pow ∧ (1000000 < |valRat a| ∨ 10 < |valRat b|) then
            .error .exponentTooLarge
          else
            match applyBin o a b with
            | .error e => .error e
            | .ok v => .ok (c2, some v)
        | _, _ => .error .typeError
  | cnt, .unaryOp u e =>
    match visit cnt e with
    | .error err => .error err
    | .ok (c1, some a) =>
      .ok (c1, some (match u with | .uadd => a | .usub => pyNeg a))
    | .ok (_, none) => .error .typeError
  | _, .call _ _ => .error .callsNotAllowed
  | _, .name _ => .error .variablesNotAllowed
  | cnt, .compare l _ r =>
    if max_nodes < cnt + 1 then .error .expressionTooLarge
    else
      match visit (cnt + 1) l with
      | .error e => .error e
      | .ok (c1, _) =>
        if max_nodes < c1 + 1 then .error .expressionTooLarge
        else
          match visit (c1 + 1) r with
          | .error e => .error e
          | .ok (c2, _) => .ok (c2, none)

/-- Python `str.replace` for a single-character pattern: every occurrence
of `pat` becomes `rep` (all the patterns of the source's normalization
are single characters). -/
def replaceChar (pat : Char) (rep : List Char) : List Char → List Char
  | [] => []
  | c :: cs => (if c = pat then rep else [c]) ++ replaceChar pat rep cs

/-- The normalization pass of `safe_eval` (lines 72–78): the source's
five chained `str.replace` calls, applied in source order
(`×`→`*`, then `÷`→`/`, then en dash `–`→`-`, then em dash `—`→`-`,
then `^`→`**`). -/
def normalize (s : List Char) : List Char :=
  replaceChar '^' ['*', '*']
    (replaceChar '—' ['-']
      (replaceChar '–' ['-']
        (replaceChar '÷' ['/']
          (replaceChar '×' ['*'] s))))

/-- The per-character substitution table of the spec (section 4.1): the
claimed meaning of `normalize`, stated independently of the source's
sequential-replace implementation. -/
def charNorm (c : Char) : List Char :=
  if c = '×' then ['*']
  else if c = '÷' then ['/']
  else if c = '–' then ['-']
  else if c = '—' then ['-']
  else if c = '^' then ['*', '*']
  else [c]

/-- `charNorm` applied across a string. -/
def normSpec : List Char → List Char
  | [] => []
  | c :: cs => charNorm c ++ normSpec cs

/-- Tokens of the modelled surface syntax. -/
inductive Tok where
  | num (v : PyVal)
  | ident (s : List Char)
  | plus | minus | star | slash | dslash | dstar | percent
  | lparen | rparen | less
deriving DecidableEq

/-- Digit character test. -/
def isDigitCh (c : Char) : Bool := '0' ≤ c && c ≤ '9'

/-- Identifier character test (letters and underscore). -/
def isAlphaCh (c : Char) : Bool :=
  ('a' ≤ c && c ≤ 'z') || ('A' ≤ c && c ≤ 'Z') || c = '_'

/-- The natural number denoted by a digit string. -/
def natOfDigits (l : List Char) : Nat :=
  l.foldl (fun a c => 10 * a + (c.toNat - 48)) 0

/-- Tokenizer for the modelled surface syntax.  Fuel-indexed (each step
consumes at least one character, so `length + 1` fuel always suffices);
any character outside the modelled vocabulary is a syntax error, as it
is for `ast.parse` on the evaluator's token vocabulary. -/
def tokenizeAux : Nat → List Char → Except EvalErr (List Tok)
  | 0, _ => .error .parseError
  | _, [] => .ok []
  | f + 1, c :: cs =>
    if c = ' ' || c = '\t' then tokenizeAux f cs
    else if isDigitCh c then
      let ip := natOfDigits (c :: cs.takeWhile isDigitCh)
      match cs.dropWhile isDigitCh with
      | '.' :: rs =>
        let fs := rs.takeWhile isDigitCh
        let v : Rat := (ip : Rat) + (natOfDigits fs : Rat) / (10 : Rat) ^ fs.length
        (tokenizeAux f (rs.dropWhile isDigitCh)).map (fun ts => .num (.float v) :: ts)
      | rest => (tokenizeAux f rest).map (fun ts => .num (.int (ip : Int)) :: ts)
    else if isAlphaCh c then
      (tokenizeAux f (cs.dropWhile isAlphaCh)).map
        (fun ts => .ident (c :: cs.takeWhile isAlphaCh) :: ts)
    else if c = '+' then (tokenizeAux f cs).map (fun ts => .plus :: ts)
    else if c = '-' then (tokenizeAux f cs).map (fun ts => .minus :: ts)
    else if c = '*' then
      match cs with
      | '*' :: rs => (tokenizeAux f rs).map (fun ts => .dstar :: ts)
      | _ => (tokenizeAux f cs).map (fun ts => .star :: ts)
    else if c = '/' then
      match cs with
      | '/' :: rs => (tokenizeAux f rs).map (fun ts => .dslash :: ts)
      | _ => (tokenizeAux f cs).map (fun ts => .slash :: ts)
    else if c = '%' then (tokenizeAux f cs).map (fun ts => .percent :: ts)
    else if c = '(' then (tokenizeAux f cs).map (fun ts => .lparen :: ts)
    else if c = ')' then (tokenizeAux f cs).map (fun ts => .rparen :: ts)
    else if c = '<' then (tokenizeAux f cs).map (fun ts => .less :: ts)
    else .error .parseError

/-- Tokenize a whole string. -/
def tokenize (s : List Char) : Except EvalErr (List Tok) :=
  tokenizeAux (s.length + 1) s

mutual

/-- `comparison := sum ('<' sum)?` — a single-comparison chain becomes a
`Compare` node, as under `ast.parse`. -/
def parseComparison : Nat → List Tok → Except EvalErr (Expr × List Tok)
  | 0, _ => .error .parseError
  | f + 1, ts =>
    match parseSum f ts with
    | .error e => .error e
    | .ok (l, .less :: rest) =>
      match parseSum f rest with
      | .error e => .error e
      | .ok (r, rest2) => .ok (.compare l .lt r, rest2)
    | .ok (l, rest) => .ok (l, rest)

/-- `sum := term (('+' | '-') term)*`, left-associative. -/
def parseSum : Nat → List Tok → Except EvalErr (Expr × List Tok)
  | 0, _ => .error .parseError
  | f + 1, ts =>
    match parseTerm f ts with
    | .error e => .error e
    | .ok (l, rest) => parseSumRest f l rest

/-- Left-associative continuation of `sum`. -/
def parseSumRest : Nat → Expr → List Tok → Except EvalErr (Expr × List Tok)
  | 0, _, _ => .error .parseError
  | f + 1, acc, .plus :: rest =>
    match parseTerm f rest with
    | .error e => .error e
    | .ok (r, rest2) => parseSumRest f (.binOp .add acc r) rest2
  | f + 1, acc, .minus :: rest =>
    match parseTerm f rest with
    | .error e => .error e
    | .ok (r, rest2) => parseSumRest f (.binOp .sub acc r) rest2
  | _ + 1, acc, ts => .ok (acc, ts)

/-- `term := factor (('*' | '/' | '//' | '%') factor)*`, left-associative. -/
def parseTerm : Nat → List Tok → Except EvalErr (Expr × List Tok)
  | 0, _ => .error .parseError
  | f + 1, ts =>
    match parseFactor f ts with
    | .error e => .error e
    | .ok (l, rest) => parseTermRest f l rest

/-- Left-associative continuation of `term`. -/
def parseTermRest : Nat → Expr → List Tok → Except EvalErr (Expr × List Tok)
  | 0, _, _ => .error .parseError
  | f + 1, acc, .star :: rest =>
    match parseFactor f rest with
    | .error e => .error e
    | .ok (r, rest2) => parseTermRest f (.binOp .mult acc r) rest2
  | f + 1, acc, .slash :: rest =>
    match parseFactor f rest with
    | .error e => .error e
    | .ok (r, rest2) => parseTermRest f (.binOp .div acc r) rest2
  | f + 1, acc, .dslash :: rest =>
    match parseFactor f rest with
    | .error e => .error e
    | .ok (r, rest2) => parseTermRest f (.binOp .floorDiv acc r) rest2
  | f + 1, acc, .percent :: rest =>
    match parseFactor f rest with
    | .error e => .error e
    | .ok (r, rest2) => parseTermRest f (.binOp .mod acc r) rest2
  | _ + 1, acc, ts => .ok (acc, ts)

/-- `factor := ('+' | '-') factor | power` — as in Python's grammar, so
unary sign binds looser than `**` on its left (`-2**2` is `-(2**2)`). -/
def parseFactor : Nat → List Tok → Except EvalErr (Expr × List Tok)
  | 0, _ => .error .parseError
  | f + 1, .plus :: rest =>
    match parseFactor f rest with
    | .error e => .error e
    | .ok (e, rest2) => .ok (.unaryOp .uadd e, rest2)
  | f + 1, .minus :: rest =>
    match parseFactor f rest with
    | .error e => .error e
    | .ok (e, rest2) => .ok (.unaryOp .usub e, rest2)
  | f + 1, ts => parsePower f ts

/-- `power := atom ('**' factor)?` — right-associative, and the right
operand may carry a unary sign (`2**-3`). -/
def parsePower : Nat → List Tok → Except EvalErr (Expr × List Tok)
  | 0, _ => .error .parseError
  | f + 1, ts =>
    match parseAtom f ts with
    | .error e => .error e
    | .ok (b, .dstar :: rest) =>
      match parseFactor f rest with
      | .error e => .error e
      | .ok (e, rest2) => .ok (.binOp .pow b e, rest2)
    | .ok (b, rest) => .ok (b, rest)

/-- `atom := NUMBER | IDENT | IDENT '(' comparison? ')' | '(' comparison ')'`
— identifiers become `Name` nodes and call syntax becomes `Call` nodes,
as under `ast.parse` (call-argument lists of the modelled subset carry at
most one argument; `SafeEval.visit_Call` never inspects them). -/
def parseAtom : Nat → List Tok → Except EvalErr (Expr × List Tok)
  | 0, _ => .error .parseError
  | _ + 1, .num v :: rest => .ok (.num v, rest)
  | _ + 1, .ident s :: .lparen :: .rparen :: rest => .ok (.call s [], rest)
  | f + 1, .ident s :: .lparen :: rest =>
    match parseComparison f rest with
    | .error e => .error e
    | .ok (a, .rparen :: rest2) => .ok (.call s [a], rest2)
    | .ok _ => .error .parseError
  | _ + 1, .ident s :: rest => .ok (.name s, rest)
  | f + 1, .lparen :: rest =>
    match parseComparison f rest with
    | .error e => .error e
    | .ok (e, .rparen :: rest2) => .ok (e, rest2)
    | .ok _ => .error .parseError
  | _ + 1, _ => .error .parseError

end

/-- Parse a token list completely (leftover tokens are a syntax error,
as under `ast.parse` in `eval` mode). -/
def parseToks (ts : List Tok) : Except EvalErr Expr :=
  match parseComparison (10 * ts.length + 100) ts with
  | .error e => .error e
  | .ok (e, []) => .ok e
  | .ok (_, _ :: _) => .error .parseError

/-- `ast.parse(text, mode="eval")` restricted to the modelled surface
syntax (see the module docstring). -/
def ast_parse (s : List Char) : Except EvalErr Expr :=
  match tokenize s with
  | .error e => .error e
  | .ok ts => parseToks ts

/-- `safe_eval` (lines 70–90): normalize, parse, visit the tree with a
fresh `SafeEval()` (counter 0), round a `float` result to 12 decimal
digits; every raised error is caught and returned as a classified
error value. -/
def safe_eval (s : List Char) : Except EvalErr PyObj :=
  match ast_parse (normalize s) with
  | .error e => .error e
  | .ok t =>
    match visit 0 t with
    | .error e => .error e
    | .ok (_, r) => .ok (pyFinalize r)

/-! ### The UI shell (session state and event handlers, lines 92–115) -/

/-- The ten decimal digit characters. -/
def digitChars : List Char :=
  ['0', '1', '2', '3', '4', '5', '6', '7', '8', '9']

/-- The character of a decimal digit. -/
def digitChar (n : Nat) : Char :=
  if n = 0 then '0' else if n = 1 then '1' else if n = 2 then '2'
  else if n = 3 then '3' else if n = 4 then '4' else if n = 5 then '5'
  else if n = 6 then '6' else if n = 7 then '7' else if n = 8 then '8'
  else '9'

/-- Decimal digits of a natural number, most significant first
(fuel-indexed; `n + 1` fuel always suffices). -/
def natDigitsAux : Nat → Nat → List Char
  | 0, _ => []
  | f + 1, n =>
    if n < 10 then [digitChar n]
    else natDigitsAux f (n / 10) ++ [digitChar (n % 10)]

/-- Python `str` of a natural number. -/
def natRepr (n : Nat) : List Char := natDigitsAux (n + 1) n

/-- Python `str` of an `int`. -/
def intRepr (i : Int) : List Char :=
  if i < 0 then '-' :: natRepr (-i).toNat else natRepr i.toNat

/-- Drop trailing `'0'` characters. -/
def stripTrailingZeros (l : List Char) : List Char :=
  (l.reverse.dropWhile (fun c => c = '0')).reverse

/-- The fractional digits of a `float` rendering: the first 12 decimal
digits of the fractional part, trailing zeros dropped, `"0"` if none
remain (Python renders an integral float with a trailing `".0"`). -/
def fracPart (q : Rat) : List Char :=
  let fr := (⌊(|q| - ((⌊|q|⌋ : Int) : Rat)) * 10 ^ 12⌋ : Int).toNat
  let ds := stripTrailingZeros (List.replicate (12 - (natRepr fr).length) '0' ++ natRepr fr)
  if ds.isEmpty then ['0'] else ds

/-- Python `str` of a `float`, modelled as the exact decimal expansion to
at most 12 fractional digits with trailing zeros dropped (every `float`
that `safe_eval` returns has been rounded to 12 decimal digits, so the
expansion is exact). -/
def floatRepr (q : Rat) : List Char :=
  (if q < 0 then ['-'] else []) ++ natRepr (⌊|q|⌋ : Int).toNat ++ '.' :: fracPart q

/-- Python `str` of a number. -/
def pyValStr : PyVal → List Char
  | .int n => intRepr n
  | .float q => floatRepr q

/-- The message of each error, as the `f"Error: {e}"` / ZeroDivisionError
handlers of `safe_eval` (lines 87–90) render it.  Messages of errors the
source raises itself are the source's literal strings; `parseError`,
`typeError` and `floatPow` carry host-generated text, modelled by a fixed
summary. -/
def errMsg : EvalErr → List Char
  | .parseError => ("invalid syntax").toList
  | .expressionTooLarge => ("Expression too large.").toList
  | .exponentTooLarge => ("Exponent too large.").toList
  | .callsNotAllowed => ("Function calls are not allowed.").toList
  | .variablesNotAllowed => ("Variables are not allowed.").toList
  | .zeroDivision => ("Division by zero").toList
  | .typeError => ("unsupported operand type").toList
  | .floatPow => ("non-integral exponent (outside the rational model)").toList

/-- Python `str(result)` for the value `evaluate` handles: errors were
already flattened by `safe_eval` into `"Error: ..."` strings, a `None`
result renders as `"None"`, a number by its decimal text. -/
def pyStr : Except EvalErr PyObj → List Char
  | .error k => ("Error: ").toList ++ errMsg k
  | .ok none => ("None").toList
  | .ok (some v) => pyValStr v

/-- Whitespace test for `str.strip`. -/
def isSpaceCh (c : Char) : Bool :=
  c = ' ' || c = '\t' || c = '\n' || c = '\r'

/-- Python `str.strip()`: drop whitespace from both ends. -/
def pyStrip (s : List Char) : List Char :=
  ((s.dropWhile isSpaceCh).reverse.dropWhile isSpaceCh).reverse

/-- `startsWith p s`: does `s` begin with `p` (Python `str.startswith`)? -/
def startsWith : List Char → List Char → Bool
  | [], _ => true
  | _ :: _, [] => false
  | p :: ps, c :: cs => if p = c then startsWith ps cs else false

/-- The Streamlit session state the shell mutates: the current expression
text and the history log (most recent first, lines 92–96). -/
structure ShellState where
  expr : List Char
  history : List (List Char)

/-- `append_to_expr` (lines 98–102): a token replaces a lone `"0"` unless
it is one of `"." ")" "**" "%"`; otherwise it is appended. -/
def append_to_expr (expr tok : List Char) : List Char :=
  if expr = ['0'] ∧ tok ≠ ['.'] ∧ tok ≠ [')'] ∧ tok ≠ ['*', '*'] ∧ tok ≠ ['%'] then tok
  else expr ++ tok

/-- `backspace` (lines 104–105): drop the last character; an emptied
expression falls back to `"0"` (Python's `expr[:-1] or "0"`). -/
def backspace (expr : List Char) : List Char :=
  if expr.dropLast = [] then ['0'] else expr.dropLast

/-- `clear` (lines 107–108): reset the expression to `"0"`. -/
def clearExpr : List Char := ['0']

/-- `evaluate` (lines 110–115): strip the expression, run `safe_eval`,
prepend `"{expr} = {result}"` to the history capped at 15 entries, and
replace the expression with `str(result)` unless that string starts with
`"Error"`, in which case the expression is left unchanged. -/
def evaluate (st : ShellState) : ShellState :=
  let expr := pyStrip st.expr
  let result := safe_eval expr
  let rendered := pyStr result
  let entry := expr ++ (' ' :: '=' :: ' ' :: rendered)
  { expr := if startsWith ("Error").toList rendered then st.expr else rendered
    history := (entry :: st.history).take 15 }

/-- A user action of the shell's button grid. -/
inductive Action where
  | append (tok : List Char)
  | back
  | clear
  | equals

/-- One shell step: the handler the button grid invokes for each action
(lines 151–176). -/
def step (st : ShellState) : Action → ShellState
  | .append t => { st with expr := append_to_expr st.expr t }
  | .back => { st with expr := backspace st.expr }
  | .clear => { st with expr := clearExpr }
  | .equals => evaluate st

/-! ### Reference semantics for the arithmetic fragment -/

/-- Reference semantics of an expression tree: the numeric value of the
expression under the operator semantics of spec section 4.2, computed
bottom-up with no node budget and no power-magnitude guard.  Precedence
and associativity are carried by the tree shape `ast_parse` produces.
Failure modes are only those of the arithmetic itself: a zero divisor,
and the rational model's boundary for non-integral exponents. -/
def denote : Expr → Except EvalErr PyVal
  | .num v => .ok v
  | .unaryOp u e =>
    match denote e with
    | .error err => .error err
    | .ok a => .ok (match u with | .uadd => a | .usub => pyNeg a)
  | .binOp o l r =>
    match denote l, denote r with
    | .ok a, .ok b => applyBin o a b
    | .error err, _ => .error err
    | _, .error err => .error err
  | _ => .error .typeError

/-- The supported arithmetic grammar at tree level: numeric literals,
binary operators and unary sign only (no names, calls or comparisons). -/
def isArith : Expr → Bool
  | .num _ => true
  | .binOp _ l r => isArith l && isArith r
  | .unaryOp _ e => isArith e
  | _ => false

/-- The power-magnitude guard, evaluated against the reference
semantics: no `Pow` node of the tree has an (already-evaluated) left
operand of magnitude above `1e6` or right operand of magnitude above
`10`. -/
def guardsOk : Expr → Bool
  | .num _ => true
  | .unaryOp _ e => guardsOk e
  | .binOp o l r =>
    guardsOk l && guardsOk r &&
      (match o, denote l, denote r with
       | .pow, .ok a, .ok b =>
         !(decide (1000000 < |valRat a|) || decide (10 < |valRat b|))
       | _, _, _ => true)
  | _ => false

/-- Size of an expression tree (call arguments are never recursed into
by the visitor, so they do not count). -/
def exprSize : Expr → Nat
  | .num _ => 1
  | .unaryOp _ e => exprSize e + 1
  | .binOp _ l r => exprSize l + exprSize r + 1
  | .call _ _ => 1
  | .name _ => 1
  | .compare l _ r => exprSize l + exprSize r + 1

/-! ### Helper lemmas -/

/-- A single-character expression tree: `n` nested unary-minus nodes
around the literal `1` (the parse tree of `"-" * n + "1"`, and of the
parenthesized `-(-(...(1)...))` which builds the same `UnaryOp` chain). -/
def nestNeg : Nat → Expr
  | 0 => .num (.int 1)
  | n + 1 => .unaryOp .usub (nestNeg n)

theorem replaceChar_append (pat : Char) (rep a b : List Char) :
    replaceChar pat rep (a ++ b) = replaceChar pat rep a ++ replaceChar pat rep b := by
  induction a with
  | nil => rfl
  | cons c cs ih => simp [replaceChar, ih]

theorem normalize_append (a b : List Char) :
    normalize (a ++ b) = normalize a ++ normalize b := by
  simp [normalize, replaceChar_append]

theorem normalize_single (c : Char) : normalize [c] = charNorm c := by
  by_cases h1 : c = '×'
  · subst h1; decide
  by_cases h2 : c = '÷'
  · subst h2; decide
  by_cases h3 : c = '–'
  · subst h3; decide
  by_cases h4 : c = '—'
  · subst h4; decide
  by_cases h5 : c = '^'
  · subst h5; decide
  simp [normalize, replaceChar, charNorm, h1, h2, h3, h4, h5]

theorem normSpec_append (a b : List Char) :
    normSpec (a ++ b) = normSpec a ++ normSpec b := by
  induction a with
  | nil => rfl
  | cons c cs ih => simp [normSpec, ih]

theorem normalize_eq_normSpec (s : List Char) : normalize s = normSpec s := by
  induction s with
  | nil => rfl
  | cons c cs ih =>
    have h : c :: cs = [c] ++ cs := rfl
    rw [h, normalize_append, normalize_single, ih]
    rfl

theorem normSpec_charNorm (c : Char) : normSpec (charNorm c) = charNorm c := by
  by_cases h1 : c = '×'
  · subst h1; decide
  by_cases h2 : c = '÷'
  · subst h2; decide
  by_cases h3 : c = '–'
  · subst h3; decide
  by_cases h4 : c = '—'
  · subst h4; decide
  by_cases h5 : c = '^'
  · subst h5; decide
  simp [normSpec, charNorm, h1, h2, h3, h4, h5]

theorem normSpec_idem (s : List Char) : normSpec (normSpec s) = normSpec s := by
  induction s with
  | nil => rfl
  | cons c cs ih =>
    have h : normSpec (c :: cs) = charNorm c ++ normSpec cs := rfl
    rw [h, normSpec_append, normSpec_charNorm, ih]

theorem normalize_idem (s : List Char) : normalize (normalize s) = normalize s := by
  simp only [normalize_eq_normSpec]
  exact normSpec_idem s

theorem roundHalfEven_intCast (n : Int) : roundHalfEven ((n : Int) : Rat) = n := by
  unfold roundHalfEven
  rw [Int.floor_intCast]
  norm_num

theorem round12_den_one (q : Rat) (h : q.den = 1) : round12 q = q := by
  have hq : ((q.num : Int) : Rat) = q := by
    conv_rhs => rw [← Rat.num_div_den q]
    rw [h]
    simp
  rw [← hq, round12]
  have h2 : ((q.num : Int) : Rat) * 10 ^ 12 = ((q.num * 10 ^ 12 : Int) : Rat) := by
    push_cast
    ring
  rw [h2, roundHalfEven_intCast]
  push_cast
  rw [mul_div_assoc]
  norm_num

theorem digitChar_mem (n : Nat) : digitChar n ∈ digitChars := by
  unfold digitChar digitChars
  split_ifs <;> simp

theorem natDigitsAux_subset (f : Nat) :
    ∀ (n : Nat) (c : Char), c ∈ natDigitsAux f n → c ∈ digitChars := by
  induction f with
  | zero => intro n c hc; simp [natDigitsAux] at hc
  | succ f ih =>
    intro n c hc
    by_cases h : n < 10
    · simp [natDigitsAux, h] at hc
      subst hc
      exact digitChar_mem n
    · simp [natDigitsAux, h] at hc
      rcases hc with hc | hc
      · exact ih _ _ hc
      · subst hc
        exact digitChar_mem _

theorem natDigitsAux_ne_nil (f n : Nat) : natDigitsAux (f + 1) n ≠ [] := by
  unfold natDigitsAux
  split_ifs <;> simp

theorem natRepr_cons (n : Nat) :
    ∃ c cs, natRepr n = c :: cs ∧ c ∈ digitChars := by
  obtain ⟨c, cs, hc⟩ := List.exists_cons_of_ne_nil (natDigitsAux_ne_nil n n)
  exact ⟨c, cs, hc,
    natDigitsAux_subset (n + 1) n c (by rw [hc]; exact List.mem_cons_self c cs)⟩

theorem mem_digitChars_ne_E (c : Char) (h : c ∈ digitChars) : c ≠ 'E' := by
  fin_cases h <;> decide

theorem startsWith_cons_ne (p c : Char) (ps cs : List Char) (h : c ≠ p) :
    startsWith (p :: ps) (c :: cs) = false := by
  unfold startsWith
  rw [if_neg (fun he => h he.symm)]

theorem pyStr_ok_head (v : PyObj) :
    ∃ c cs, pyStr (.ok v) = c :: cs ∧ c ≠ 'E' := by
  match v with
  | none => exact ⟨'N', ('o' :: 'n' :: 'e' :: []), rfl, by decide⟩
  | some (.int n) =>
    by_cases h : n < 0
    · refine ⟨'-', natRepr (-n).toNat, ?_, by decide⟩
      simp [pyStr, pyValStr, intRepr, h]
    · obtain ⟨c, cs, hc, hm⟩ := natRepr_cons n.toNat
      refine ⟨c, cs, ?_, mem_digitChars_ne_E c hm⟩
      simp [pyStr, pyValStr, intRepr, h, hc]
  | some (.float q) =>
    by_cases h : q < 0
    · refine ⟨'-', natRepr (⌊|q|⌋ : Int).toNat ++ '.' :: fracPart q, ?_, by decide⟩
      simp [pyStr, pyValStr, floatRepr, h]
    · obtain ⟨c, cs, hc, hm⟩ := natRepr_cons (⌊|q|⌋ : Int).toNat
      refine ⟨c, cs ++ '.' :: fracPart q, ?_, mem_digitChars_ne_E c hm⟩
      simp [pyStr, pyValStr, floatRepr, h, hc]

theorem startsWith_error_ok (v : PyObj) :
    startsWith ("Error").toList (pyStr (.ok v)) = false := by
  obtain ⟨c, cs, hc, hne⟩ := pyStr_ok_head v
  rw [hc]
  exact startsWith_cons_ne 'E' c _ cs hne

theorem startsWith_error_err (k : EvalErr) :
    startsWith ("Error").toList (pyStr (.error k)) = true := by
  cases k <;> decide

theorem pyStr_ne_nil (r : Except EvalErr PyObj) : pyStr r ≠ [] := by
  match r with
  | .error k => cases k <;> decide
  | .ok v =>
    obtain ⟨c, cs, hc, _⟩ := pyStr_ok_head v
    rw [hc]
    simp

theorem evaluate_expr_def (st : ShellState) :
    (evaluate st).expr =
      if startsWith ("Error").toList (pyStr (safe_eval (pyStrip st.expr)))
      then st.expr else pyStr (safe_eval (pyStrip st.expr)) := rfl

set_option maxHeartbeats 2000000 in
theorem visit_agrees_denote_aux :
    ∀ (n : Nat) (t : Expr), exprSize t ≤ n → ∀ (c : Nat) (v : PyVal),
      isArith t = true → guardsOk t = true → denote t = .ok v →
      visit c t = .ok (c, some v) := by
  intro n
  induction n with
  | zero => intro t ht; cases t <;> simp [exprSize] at ht
  | succ n ih =>
    intro t ht c v ha hg hd
    cases t with
    | num w =>
      simp only [denote, Except.ok.injEq] at hd
      subst hd
      rfl
    | unaryOp u e =>
      simp only [isArith] at ha
      simp only [guardsOk] at hg
      simp only [denote] at hd
      have hsz : exprSize e ≤ n := by simp only [exprSize] at ht; omega
      cases he : denote e with
      | error err => rw [he] at hd; simp at hd
      | ok a =>
        rw [he] at hd
        simp only [Except.ok.injEq] at hd
        have step := ih e hsz c a ha hg he
        simp only [visit, step]
        rw [hd]
    | binOp o l r =>
      simp only [isArith, Bool.and_eq_true] at ha
      simp only [guardsOk, Bool.and_eq_true] at hg
      simp only [denote] at hd
      have hszl : exprSize l ≤ n := by simp only [exprSize] at ht; omega
      have hszr : exprSize r ≤ n := by simp only [exprSize] at ht; omega
      cases hl : denote l with
      | error err => rw [hl] at hd; simp at hd
      | ok a =>
        cases hr : denote r with
        | error err => rw [hl, hr] at hd; simp at hd
        | ok b =>
          rw [hl, hr] at hd
          have ihl := ih l hszl c a ha.1 hg.1.1 hl
          have ihr := ih r hszr c b ha.2 hg.1.2 hr
          simp only [visit, ihl]
          simp only [ihr]
          have hguard : ¬(o = .pow ∧ (1000000 < |valRat a| ∨ 10 < |valRat b|)) := by
            rcases hg with ⟨-, hG⟩
            rw [hl, hr] at hG
            rintro ⟨rfl, hbounds⟩
            simp only [Bool.not_eq_true', Bool.or_eq_false_iff,
              decide_eq_false_iff_not] at hG
            rcases hbounds with hb | hb
            · exact hG.1 hb
            · exact hG.2 hb
          have hd2 : applyBin o a b = .ok v := hd
          rw [if_neg hguard, hd2]
    | call fn args => simp [isArith] at ha
    | name id => simp [isArith] at ha
    | compare l o r => simp [isArith] at ha

theorem visit_agrees_denote (t : Expr) (c : Nat) (v : PyVal)
    (ha : isArith t = true) (hg : guardsOk t = true) (hd : denote t = .ok v) :
    visit c t = .ok (c, some v) :=
  visit_agrees_denote_aux (exprSize t) t (Nat.le_refl _) c v ha hg hd

/-! ### The claims -/

/-- Claim C1 — refuted by the code (the claim describes the intended
budget, the code has a slip): the `visited` counter is incremented only
inside `generic_visit`, and `visit_UnaryOp` / `visit_BinOp` /
`visit_Constant` never touch it, so an expression of 201 nested unary
minus operations evaluates to a value (with the counter still at 0)
instead of aborting with the `ExpressionTooLarge` classification. -/
theorem c1_nested_unary_never_trips_budget :
    visit 0 (nestNeg 201) = .ok (0, some (.int (-1)))
    ∧ safe_eval (List.replicate 201 '-' ++ ['1']) = .ok (some (.int (-1))) := by
  constructor
  · with_unfolding_all decide
  · with_unfolding_all decide

/-- Claim C2 — the particular cases hold (bare identifiers and call
syntax are rejected explicitly), but the universal claim is refuted:
`"1<2"` contains a character outside the listed vocabulary yet produces
no error at all — the `Compare` node falls through `generic_visit`,
which returns Python `None` as a successful result. -/
theorem c2_identifier_call_rejected_compare_leaks :
    safe_eval (String.toList "x+1") = .error .variablesNotAllowed
    ∧ safe_eval (String.toList "print(1)") = .error .callsNotAllowed
    ∧ safe_eval (String.toList "1<2") = .ok none := by
  refine ⟨?_, ?_, ?_⟩
  · with_unfolding_all decide
  · with_unfolding_all decide
  · with_unfolding_all decide

/-- Claim C3 — refuted by the code: `safe_eval("2<3")` returns Python
`None`, a successful outcome that is neither a numeric value nor an
error classification, and the shell renders it as the text `"None"`. -/
theorem c3_none_crosses_boundary :
    safe_eval (String.toList "2<3") = .ok none
    ∧ pyStr (safe_eval (String.toList "2<3")) = String.toList "None" := by
  constructor
  · with_unfolding_all decide
  · with_unfolding_all decide

/-- Counterexample to Claim C4 as stated: `"2000000**2"` is a
well-formed arithmetic string of the supported grammar whose value
under standard operator precedence is `4000000000000` (its parse tree
is arithmetic and its reference value is defined), yet `evaluate` does
not return that numeric value — the power-magnitude guard fires first
and the call errors with the `ExponentTooLarge` classification. -/
theorem c4_counterexample :
    ast_parse (normalize (String.toList "2000000**2"))
      = .ok (.binOp .pow (.num (.int 2000000)) (.num (.int 2)))
    ∧ isArith (.binOp .pow (.num (.int 2000000)) (.num (.int 2))) = true
    ∧ denote (.binOp .pow (.num (.int 2000000)) (.num (.int 2)))
      = .ok (.int 4000000000000)
    ∧ safe_eval (String.toList "2000000**2") = .error .exponentTooLarge := by
  refine ⟨by with_unfolding_all rfl, rfl, ?_, ?_⟩
  · with_unfolding_all rfl
  · with_unfolding_all decide

/-- Claim C4 (amended): for every well-formed arithmetic expression of
the supported grammar whose value under standard operator precedence is
defined and on which the power-magnitude guard does not fire, `evaluate`
returns exactly that value — stated universally at tree level against
the reference semantics `denote`, at string level through the parser
(with the source's result finalization), and at the claim's concrete
cases plus probes for each precedence/associativity rule (`*` over `+`,
left associativity of `-`, right associativity of `**`, and `**`
binding tighter than unary minus). -/
theorem c4_arithmetic_standard_value :
    (∀ (t : Expr) (c : Nat) (v : PyVal),
      isArith t = true → guardsOk t = true → denote t = .ok v →
      visit c t = .ok (c, some v))
    ∧ (∀ (s : List Char) (t : Expr) (v : PyVal),
      ast_parse (normalize s) = .ok t →
      isArith t = true → guardsOk t = true → denote t = .ok v →
      safe_eval s = .ok (pyFinalize (some v)))
    ∧ safe_eval (String.toList "2+2") = .ok (some (.int 4))
    ∧ safe_eval (String.toList "7/2") = .ok (some (.float (7 / 2)))
    ∧ safe_eval (String.toList "7//2") = .ok (some (.int 3))
    ∧ safe_eval (String.toList "7%2") = .ok (some (.int 1))
    ∧ safe_eval (String.toList "2^10") = .ok (some (.int 1024))
    ∧ safe_eval (String.toList "2+3*4") = .ok (some (.int 14))
    ∧ safe_eval (String.toList "10-3-2") = .ok (some (.int 5))
    ∧ safe_eval (String.toList "2**3**2") = .ok (some (.int 512))
    ∧ safe_eval (String.toList "-2**2") = .ok (some (.int (-4))) := by
  refine ⟨visit_agrees_denote, ?_, ?_, ?_, ?_, ?_, ?_, ?_, ?_, ?_, ?_⟩
  · intro s t v hp ha hg hd
    have h0 := visit_agrees_denote t 0 v ha hg hd
    simp only [safe_eval, hp, h0]
  all_goals with_unfolding_all decide

/-- Witness for C4 (amended) at concrete inputs, discharging the
hypotheses of both universal parts. -/
theorem c4_arithmetic_standard_value_witness :
    visit 5 (.binOp .mult (.num (.int 3)) (.num (.int 4))) = .ok (5, some (.int 12))
    ∧ safe_eval (String.toList "2+3*4") = .ok (pyFinalize (some (.int 14))) :=
  ⟨c4_arithmetic_standard_value.1 (.binOp .mult (.num (.int 3)) (.num (.int 4))) 5
      (.int 12) (by with_unfolding_all decide) (by with_unfolding_all decide)
      (by with_unfolding_all decide),
   c4_arithmetic_standard_value.2.1 (String.toList "2+3*4")
      (.binOp .add (.num (.int 2)) (.binOp .mult (.num (.int 3)) (.num (.int 4))))
      (.int 14) (by with_unfolding_all rfl) (by with_unfolding_all decide)
      (by with_unfolding_all decide) (by with_unfolding_all decide)⟩

/-- Claim C5: for every `Pow` node, once both operands are evaluated,
`visit_BinOp` checks `abs(left) > 1e6 or abs(right) > 10` before
computing and fails with the `ExponentTooLarge` classification when the
guard fires; in particular `evaluate("2**1000")` is rejected. -/
theorem c5_pow_guard :
    (∀ (e1 e2 : Expr) (c c1 c2 : Nat) (a b : PyVal),
      visit c e1 = .ok (c1, some a) → visit c1 e2 = .ok (c2, some b) →
      1000000 < |valRat a| ∨ 10 < |valRat b| →
      visit c (.binOp .pow e1 e2) = .error .exponentTooLarge)
    ∧ safe_eval (String.toList "2**1000") = .error .exponentTooLarge := by
  constructor
  · intro e1 e2 c c1 c2 a b h1 h2 hg
    simp only [visit, h1]
    simp only [h2]
    rw [if_pos ⟨trivial, hg⟩]
  · with_unfolding_all decide

/-- Witness for C5 at a concrete input. -/
theorem c5_pow_guard_witness :
    visit 0 (.binOp .pow (.num (.int 2)) (.num (.int 1000))) = .error .exponentTooLarge :=
  c5_pow_guard.1 (.num (.int 2)) (.num (.int 1000)) 0 0 0 (.int 2) (.int 1000)
    (by with_unfolding_all decide) (by with_unfolding_all decide)
    (by with_unfolding_all decide)

/-- Claim C6: every application of `/`, `//` or `%` whose right operand
evaluates to zero raises `ZeroDivisionError`, which `safe_eval` catches
and classifies as division by zero; in particular `evaluate("1/0")`. -/
theorem c6_division_by_zero :
    (∀ (o : BOp), o = .div ∨ o = .floorDiv ∨ o = .mod →
      ∀ (e1 e2 : Expr) (c c1 c2 : Nat) (a b : PyVal),
        visit c e1 = .ok (c1, some a) → visit c1 e2 = .ok (c2, some b) →
        valRat b = 0 →
        visit c (.binOp o e1 e2) = .error .zeroDivision)
    ∧ safe_eval (String.toList "1/0") = .error .zeroDivision := by
  constructor
  · intro o ho e1 e2 c c1 c2 a b h1 h2 hb
    rcases ho with rfl | rfl | rfl <;>
    · simp only [visit, h1]
      simp only [h2]
      simp [applyBin, pyDiv, pyFloorDiv, pyMod, hb]
  · with_unfolding_all decide

/-- Witness for C6 at a concrete input. -/
theorem c6_division_by_zero_witness :
    visit 0 (.binOp .div (.num (.int 1)) (.num (.int 0))) = .error .zeroDivision :=
  c6_division_by_zero.1 .div (.inl rfl) (.num (.int 1)) (.num (.int 0)) 0 0 0
    (.int 1) (.int 0) (by with_unfolding_all decide)
    (by with_unfolding_all decide) (by with_unfolding_all decide)

/-- Claim C7: a `float` result is finalized by `round(result, 12)` — so
a non-integral computed value is returned rounded to 12 decimal digits —
while rounding an integral value is the identity and an `int` is never
rounded, so every integral computed value is returned unchanged, with
zero fractional part. -/
theorem c7_result_rounding (t : Expr) (c : Nat) (r : PyObj)
    (h : visit 0 t = .ok (c, r)) :
    (∀ s, ast_parse (normalize s) = .ok t → safe_eval s = .ok (pyFinalize r))
    ∧ (∀ q, r = some (.float q) → pyFinalize r = some (.float (round12 q)))
    ∧ (∀ q, r = some (.float q) → q.den = 1 → pyFinalize r = r)
    ∧ (∀ n, r = some (.int n) → pyFinalize r = r) := by
  refine ⟨?_, ?_, ?_, ?_⟩
  · intro s hs
    simp only [safe_eval, hs, h]
  · rintro q rfl
    rfl
  · rintro q rfl hden
    simp [pyFinalize, round12_den_one q hden]
  · rintro n rfl
    rfl

/-- Witness for C7: `7/2` is finalized to its 12-digit rounding (which
is `3.5` itself), and the integral float computed by `8/2` passes
through with its value unchanged. -/
theorem c7_result_rounding_witness :
    safe_eval (String.toList "7/2") = .ok (pyFinalize (some (.float (7 / 2))))
    ∧ pyFinalize (some (.float (7 / 2))) = some (.float (round12 (7 / 2)))
    ∧ pyFinalize (some (.float 4)) = some (.float 4) :=
  ⟨(c7_result_rounding (.binOp .div (.num (.int 7)) (.num (.int 2))) 0
      (some (.float (7 / 2))) (by with_unfolding_all decide)).1
      (String.toList "7/2") (by with_unfolding_all rfl),
   (c7_result_rounding (.binOp .div (.num (.int 7)) (.num (.int 2))) 0
      (some (.float (7 / 2))) (by with_unfolding_all decide)).2.1 (7 / 2) rfl,
   (c7_result_rounding (.binOp .div (.num (.int 8)) (.num (.int 2))) 0
      (some (.float 4)) (by with_unfolding_all decide)).2.2.1 4 rfl
      (by with_unfolding_all decide)⟩

/-- Claim C8: `normalize` is the characterwise application of exactly
the five literal substitutions (`×`→`*`, `÷`→`/`, en dash→`-`,
em dash→`-`, `^`→`**`), every other character is left unchanged, and
normalization is idempotent. -/
theorem c8_normalize_charwise_idempotent :
    (∀ s, normalize s = normSpec s)
    ∧ (∀ c, c ≠ '×' → c ≠ '÷' → c ≠ '–' → c ≠ '—' → c ≠ '^' → charNorm c = [c])
    ∧ (∀ s, normalize (normalize s) = normalize s) := by
  refine ⟨normalize_eq_normSpec, ?_, normalize_idem⟩
  intro c h1 h2 h3 h4 h5
  simp [charNorm, h1, h2, h3, h4, h5]

/-- Witness for C8 at concrete inputs. -/
theorem c8_normalize_witness :
    charNorm 'a' = ['a']
    ∧ normalize (String.toList "2^10") = normSpec (String.toList "2^10")
    ∧ normalize (normalize (String.toList "2^10")) = normalize (String.toList "2^10") :=
  ⟨c8_normalize_charwise_idempotent.2.1 'a' (by decide) (by decide) (by decide)
      (by decide) (by decide),
   c8_normalize_charwise_idempotent.1 (String.toList "2^10"),
   c8_normalize_charwise_idempotent.2.2 (String.toList "2^10")⟩

/-- Claim C9: in the shell's `evaluate` handler, an error result leaves
the stored expression unchanged and only surfaces the message through
the history log (prepended, capped at 15), while a successful result
replaces the expression with its rendering. -/
theorem c9_error_preserves_expression (st : ShellState) :
    (∀ k, safe_eval (pyStrip st.expr) = .error k → (evaluate st).expr = st.expr)
    ∧ (∀ v, safe_eval (pyStrip st.expr) = .ok v → (evaluate st).expr = pyStr (.ok v))
    ∧ (evaluate st).history =
        ((pyStrip st.expr ++ ' ' :: '=' :: ' ' :: pyStr (safe_eval (pyStrip st.expr)))
          :: st.history).take 15 := by
  refine ⟨?_, ?_, rfl⟩
  · intro k hk
    rw [evaluate_expr_def, hk, startsWith_error_err k]
    simp
  · intro v hv
    rw [evaluate_expr_def, hv, startsWith_error_ok v]
    simp

/-- Witness for C9: the error `1/0` keeps the expression, the success
`2+2` replaces it with the rendered value. -/
theorem c9_error_preserves_expression_witness :
    (evaluate ⟨String.toList "1/0", []⟩).expr = String.toList "1/0"
    ∧ (evaluate ⟨String.toList "2+2", []⟩).expr = pyStr (.ok (some (.int 4))) :=
  ⟨(c9_error_preserves_expression ⟨String.toList "1/0", []⟩).1 .zeroDivision
      (by with_unfolding_all decide),
   (c9_error_preserves_expression ⟨String.toList "2+2", []⟩).2.1 (some (.int 4))
      (by with_unfolding_all decide)⟩

/-- Claim C10: every user action keeps the expression non-empty (for
`append` this uses that the button grid only sends non-empty tokens);
in particular backspacing a one-character expression and clearing both
reset it to `"0"`. -/
theorem c10_expression_nonempty :
    (∀ (st : ShellState) (a : Action), st.expr ≠ [] →
      (∀ t, a = .append t → t ≠ []) → (step st a).expr ≠ [])
    ∧ (∀ (c : Char) (hist : List (List Char)), (step ⟨[c], hist⟩ .back).expr = ['0'])
    ∧ (∀ st, (step st .clear).expr = ['0']) := by
  refine ⟨?_, ?_, ?_⟩
  · intro st a hex hval
    cases a with
    | append t =>
      have ht : t ≠ [] := hval t rfl
      simp only [step, append_to_expr]
      split_ifs with h
      · exact ht
      · simp [hex]
    | back =>
      simp only [step, backspace]
      split_ifs with h
      · simp
      · exact h
    | clear => simp [step, clearExpr]
    | equals =>
      simp only [step, evaluate]
      split_ifs with h
      · exact hex
      · exact pyStr_ne_nil _
  · intro c hist
    simp [step, backspace]
  · intro st
    simp [step, clearExpr]

/-- Witness for C10 at a concrete state and action. -/
theorem c10_expression_nonempty_witness :
    (step ⟨['0'], []⟩ (.append ['1'])).expr ≠ []
    ∧ (step ⟨['5'], []⟩ .back).expr = ['0']
    ∧ (step ⟨['5'], []⟩ .clear).expr = ['0'] :=
  ⟨c10_expression_nonempty.1 ⟨['0'], []⟩ (.append ['1']) (by decide)
      (by intro t ht; cases ht; decide),
   c10_expression_nonempty.2.1 '5' [],
   c10_expression_nonempty.2.2 ⟨['5'], []⟩⟩

end Calculator
